import Mathlib

/-!
Verification development for the steamsale_bot repository.

The Rust source is shallowly embedded: the persisted MongoDB collections
(`discord`, `junction`, `apps`) become Lean lists of records, each repository
operation becomes a pure function on those lists mirroring the exact Mongo
query the source issues, and the effectful sweep code in
`src/events/serenity_ready.rs` becomes a pure function parameterised by the
outcomes of its external calls (Steam fetches, Discord sends, repository
round trips).  Machine integers (`i32`, `i64`) are modelled as `Int`: the
embedded code only compares them, never does arithmetic on them, so overflow
cannot occur.  Mongo `ObjectId`s are modelled as `Nat`.
-/

namespace steam

/-- Embeds `steam::PriceOverview` (src/steam.rs). -/
structure PriceOverview where
  discount_percent : Int
  initial_formatted : String
  final_formatted : String
  deriving DecidableEq, Repr

/-- Embeds `steam::Recommendations` (src/steam.rs). -/
structure Recommendations where
  total : Nat
  deriving DecidableEq, Repr

/-- Embeds `steam::ReleaseDate` (src/steam.rs). -/
structure ReleaseDate where
  coming_soon : Bool
  deriving DecidableEq, Repr

/-- Embeds `steam::App` (src/steam.rs). -/
structure App where
  name : String
  app_id : Int
  is_free : Bool
  description : String
  header_image : String
  price_overview : Option PriceOverview
  recommendations : Option Recommendations
  release_date : ReleaseDate
  deriving DecidableEq, Repr

end steam

namespace models

/-- Embeds `models::Discord` (src/models.rs).  `id` models the Mongo `_id`. -/
structure Discord where
  id : Nat
  channel_id : Int
  sale_threshold : Int
  server_id : Int
  deriving DecidableEq, Repr

/-- Embeds `models::Junction` (src/models.rs), one tracking link. -/
structure Junction where
  id : Nat
  app_id : Int
  server_id : Int
  is_trailing_sale_day : Bool
  coming_soon : Bool
  sale_threshold : Option Int
  deriving DecidableEq, Repr

/-- Embeds `models::App` (src/models.rs), one item-cache row. -/
structure App where
  id : Nat
  app_id : Int
  app_name : String
  deriving DecidableEq, Repr

end models

/-- Outcome of one `steam.app_details` call: `ok` mirrors
`Ok(Option<steam::App>)`; `err b` mirrors `Err(e)` with `b = e.is_rate_limited()`
(the only thing the retry loop in `get_app` inspects about the error). -/
inductive FetchResult where
  | ok : Option steam.App → FetchResult
  | err : Bool → FetchResult
  deriving DecidableEq, Repr

/-- Embeds `matches!(&app_res, Err(err) if err.is_rate_limited())` from `get_app`
(src/events/serenity_ready.rs). -/
def is_rate_limited_res : FetchResult → Bool
  | .err rl => rl
  | .ok _ => false

/-- The `MAX_TRIES` constant of `get_app` (src/events/serenity_ready.rs line 149). -/
def MAX_TRIES : Nat := 5

/-- The retry loop of `get_app` (src/events/serenity_ready.rs lines 152-163).
`details n` is the outcome of the (n+1)-th `steam.app_details` call.
`idx` is the number of calls issued so far; `remaining` is `MAX_TRIES - tries`
(the Rust loop breaks, after issuing a retry, exactly when `tries >= MAX_TRIES`,
i.e. when `remaining = 0`; otherwise it increments `tries`, i.e. decrements
`remaining`).  Returns the final result together with the total number of
`app_details` calls issued. -/
def get_app_loop (details : Nat → FetchResult) :
    Nat → Nat → FetchResult → FetchResult × Nat
  | idx, 0, res =>
    if is_rate_limited_res res then (details idx, idx + 1) else (res, idx)
  | idx, r + 1, res =>
    if is_rate_limited_res res then get_app_loop details (idx + 1) r (details idx)
    else (res, idx)

/-- Embeds `get_app` (src/events/serenity_ready.rs lines 144-166): one initial
`app_details` call followed by the rate-limit retry loop.  The sleep between
attempts is irrelevant to the result and elided. -/
def get_app (details : Nat → FetchResult) : FetchResult × Nat :=
  get_app_loop details 1 MAX_TRIES (details 0)

/-! ## Repository layer

Each function mirrors one repository method and the semantics of the exact
Mongo operation it issues on the modelled collection list.  `update_one`
modifies the first matching document, `delete_one` removes the first matching
document, `upsert` inserts when the query matched nothing (the fresh `_id`
Mongo would generate is passed explicitly). -/

/-- The `update_one({_id: id}, {$set: {sale_threshold: t}})` issued by
`JunctionRepo::set_thresholds` (src/repos/junction_repo.rs lines 49-51):
sets `sale_threshold` on the first document whose `_id` matches. -/
def update_one_threshold : List models.Junction → Nat → Int → List models.Junction
  | [], _, _ => []
  | x :: xs, idv, t =>
    if x.id = idv then { x with sale_threshold := some t } :: xs
    else x :: update_one_threshold xs idv t

/-- The `update_one({_id: junction.id}, {$set: jdoc})` issued by
`JunctionRepo::update_junction` (src/repos/junction_repo.rs lines 130-135):
replaces the fields of the first document whose `_id` matches (the serialized
document omits `_id`, so the stored `_id` is unchanged; `j` carries it). -/
def update_one_by_id : List models.Junction → models.Junction → List models.Junction
  | [], _ => []
  | x :: xs, j => if x.id = j.id then j :: xs else x :: update_one_by_id xs j

/-- The `delete_one({server_id, app_id})` issued by `JunctionRepo::remove_junction`
(src/repos/junction_repo.rs lines 137-143): removes the first matching document. -/
def remove_junction_store (store : List models.Junction) (guild_id app_id : Int) :
    List models.Junction
  :=
  match store with
  | [] => []
  | x :: xs =>
    if x.server_id == guild_id && x.app_id == app_id then xs
    else x :: remove_junction_store xs guild_id app_id

/-- Embeds `JunctionRepo::add_junction_if_not_exists`
(src/repos/junction_repo.rs lines 111-123): `update_one` with
`$setOnInsert` and `upsert(true)` keyed by `(app_id, server_id)` — a no-op when
a document with that key exists, otherwise an insert of the junction's fields
under a fresh `_id` (the serialized document omits `_id`). -/
def add_junction_if_not_exists (store : List models.Junction) (j : models.Junction)
    (fresh_id : Nat) : List models.Junction :=
  if store.any (fun x => x.app_id == j.app_id && x.server_id == j.server_id) then store
  else store ++ [{ j with id := fresh_id }]

/-- Per-environment outcomes of the fallible sub-calls of
`JunctionRepo::set_thresholds`: whether opening the snapshot cursor succeeded,
whether deserializing each cursor element succeeded, and whether each
individual `update_one` succeeded. -/
structure ThresholdEnv where
  find_ok : Bool
  elem_ok : models.Junction → Bool
  upd_ok : models.Junction → Bool

/-- One iteration of the cursor loop of `JunctionRepo::set_thresholds`
(src/repos/junction_repo.rs lines 44-56): a cursor element that fails to
deserialize is skipped with `continue`; otherwise the record is updated by
`_id` and, when the update succeeds, its `app_id` is pushed onto
`updated_apps`. -/
def set_thr_step (env : ThresholdEnv) (t : Int)
    (acc : List models.Junction × List Int) (x : models.Junction) :
    List models.Junction × List Int :=
  if env.elem_ok x then
    if env.upd_ok x then (update_one_threshold acc.1 x.id t, acc.2 ++ [x.app_id])
    else acc
  else acc

/-- Embeds `JunctionRepo::set_thresholds` (src/repos/junction_repo.rs lines
22-62).  A snapshot of every junction with the given `server_id` and an
`app_id` in `app_ids` is read first (snapshot read concern); if the cursor
cannot be opened all requested ids are returned as failed.  Each snapshot
record is then updated individually by `_id`; ids of successfully updated
records are collected, and the returned failed list is `app_ids` with the
updated ids retained out.  Returns (new store, failed app ids). -/
def set_thresholds (env : ThresholdEnv) (store : List models.Junction)
    (guild_id : Int) (threshold : Int) (app_ids : List Int) :
    List models.Junction × List Int :=
  if env.find_ok then
    let snapshot := store.filter
      (fun x => x.server_id == guild_id && app_ids.contains x.app_id)
    let fin := snapshot.foldl (set_thr_step env threshold) (store, [])
    (fin.1, app_ids.filter (fun a => !fin.2.contains a))
  else (store, app_ids)

/-- Embeds `AppsRepo::remove_orphans` (src/repos/apps_repo.rs lines 25-51):
aggregate the `_id`s of apps whose `$lookup` into the junction collection by
`app_id` produced zero trackers, then `delete_many({_id: {$in: ids}})`. -/
def remove_orphans (apps : List models.App) (junctions : List models.Junction) :
    List models.App :=
  let orphan_ids :=
    (apps.filter (fun a => !junctions.any (fun j => j.app_id == a.app_id))).map (·.id)
  apps.filter (fun a => !orphan_ids.contains a.id)

/-- The `DEFAULT_SALE_THRESHOLD` constant of `DiscordRepo::add_guild_if_not_exists`
(src/repos/discord_repo.rs line 46). -/
def DEFAULT_SALE_THRESHOLD : Int := 1

/-- Embeds `DiscordRepo::add_guild_if_not_exists` (src/repos/discord_repo.rs
lines 41-59): `update_one({server_id}, {$setOnInsert: ddoc})` with
`upsert(true)` — a no-op when a config for the guild exists, otherwise an
insert of `{server_id, channel_id, sale_threshold := DEFAULT_SALE_THRESHOLD}`
under a fresh `_id`. -/
def add_guild_if_not_exists (store : List models.Discord) (guild_id channel_id : Int)
    (fresh_id : Nat) : List models.Discord :=
  if store.any (fun d => d.server_id == guild_id) then store
  else
    store ++ [{ id := fresh_id, channel_id := channel_id,
                sale_threshold := DEFAULT_SALE_THRESHOLD, server_id := guild_id }]

/-! ## Reconciliation sweep (src/events/serenity_ready.rs)

`notify_guild`, the per-junction closure of `check_apps`, the per-item body,
and `check_apps` itself are embedded as pure functions over a `SweepEnv` that
injects the outcome of every external call (Steam fetch, Discord send, each
repository round trip).  Discord embeds are abstracted to their kind and
payload (`released_embed app` / `sale_embed app`): the claims only concern
which notification is sent to which channel. -/

/-- The two embed kinds built by `released_embed` / `sale_embed`
(src/events/serenity_ready.rs lines 227-276), abstracted to their payload. -/
inductive Embed where
  | released : steam.App → Embed
  | sale : steam.App → Embed
  deriving DecidableEq, Repr

/-- One `channel.send_message` payload: the target channel and the embed. -/
structure Message where
  channel : Int
  embed : Embed
  deriving DecidableEq, Repr

/-- Embeds `junction.sale_threshold.unwrap_or(discord.sale_threshold)`
(src/events/serenity_ready.rs line 186). -/
def effective_threshold (j : models.Junction) (d : models.Discord) : Int :=
  j.sale_threshold.getD d.sale_threshold

/-- Embeds `app.price_overview.as_ref().is_some_and(|p| p.discount_percent >= threshold)`
(src/events/serenity_ready.rs lines 187-190). -/
def is_significant_discount (j : models.Junction) (d : models.Discord)
    (app : steam.App) : Bool :=
  match app.price_overview with
  | some p => decide (effective_threshold j d ≤ p.discount_percent)
  | none => false

/-- Result of one `notify_guild` run: the messages successfully delivered (in
send order), the junction value persisted by `update_junction` when that call
was reached and succeeded, and whether `notify_guild` returned `Ok(())`. -/
structure NotifyResult where
  delivered : List Message
  persisted : Option models.Junction
  success : Bool
  deriving DecidableEq, Repr

/-- Embeds `notify_guild` (src/events/serenity_ready.rs lines 168-206).

`guild_res` is the outcome of `get_discord`: `none` models a repository error,
`some none` a missing guild-config record (both make `notify_guild` return an
error via `?` / `.with_context`); the per-sweep `OnceMap` cache is semantically
transparent because the injected lookup outcome is a function of the guild id.
A negative `channel_id` makes `discord.channel_id.try_into()?` fail.
`send_ok m` tells whether `channel.send_message` succeeds for message `m`;
`update_ok j` whether `update_junction(j)` succeeds.  Every failing call makes
the Rust function return early with `Err`, which is mirrored by returning a
`NotifyResult` with `success := false` at the corresponding point. -/
def notify_guild (guild_res : Option (Option models.Discord))
    (j : models.Junction) (app : steam.App)
    (send_ok : Message → Bool) (update_ok : models.Junction → Bool) : NotifyResult :=
  match guild_res with
  | none => ⟨[], none, false⟩
  | some none => ⟨[], none, false⟩
  | some (some d) =>
    if d.channel_id < 0 then ⟨[], none, false⟩
    else
      let relCond := j.coming_soon && !app.release_date.coming_soon
      let relMsg : Message := ⟨d.channel_id, .released app⟩
      if relCond && !send_ok relMsg then ⟨[], none, false⟩
      else
        let relDelivered := if relCond then [relMsg] else []
        let sig := is_significant_discount j d app
        let saleCond := sig && !j.is_trailing_sale_day
        let saleMsg : Message := ⟨d.channel_id, .sale app⟩
        if saleCond && !send_ok saleMsg then ⟨relDelivered, none, false⟩
        else
          let saleDelivered := if saleCond then [saleMsg] else []
          let j' := { j with coming_soon := app.release_date.coming_soon,
                             is_trailing_sale_day := sig }
          if update_ok j' then ⟨relDelivered ++ saleDelivered, some j', true⟩
          else ⟨relDelivered ++ saleDelivered, none, false⟩

/-- Injected outcomes of every external call one sweep makes.
`app_ids = none` models a `get_app_ids` repository error; `junctions a = none`
models a failure opening the `get_junctions(a)` cursor, and a `none` element
models one cursor element failing to deserialize; `guild g` is the
`get_guild(g)` outcome as in `notify_guild`; `remove_ok g a` is whether
`remove_junction(g, a)` succeeds, `remove_orphans_ok` whether the orphan prune
succeeds. -/
structure SweepEnv where
  remove_orphans_ok : Bool
  app_ids : Option (List Int)
  fetch : Int → Nat → FetchResult
  junctions : Int → Option (List (Option models.Junction))
  guild : Int → Option (Option models.Discord)
  send_ok : Message → Bool
  update_ok : models.Junction → Bool
  remove_ok : Int → Int → Bool

/-- Embeds the per-junction closure of `check_apps`
(src/events/serenity_ready.rs lines 119-137): a cursor-element error is
logged and skipped; otherwise `notify_guild` runs (its persisted update is
applied to the junction store), a `notify_guild` error is logged and ends this
link's evaluation, and otherwise a free-and-released app's junction is removed
(a failing removal is logged).  Returns (new junction store, delivered messages). -/
def eval_link (env : SweepEnv) (app : steam.App) (elem : Option models.Junction)
    (store : List models.Junction) : List models.Junction × List Message :=
  match elem with
  | none => (store, [])
  | some j =>
    let r := notify_guild (env.guild j.server_id) j app env.send_ok env.update_ok
    let store1 := match r.persisted with
      | some j' => update_one_by_id store j'
      | none => store
    if !r.success then (store1, r.delivered)
    else if app.is_free && !app.release_date.coming_soon then
      if env.remove_ok j.server_id j.app_id then
        (remove_junction_store store1 j.server_id j.app_id, r.delivered)
      else (store1, r.delivered)
    else (store1, r.delivered)

/-- Embeds the per-item body of `check_apps` (src/events/serenity_ready.rs
lines 103-139): fetch the app with `get_app` (a not-found or failed fetch is
logged and the item skipped with `continue`), then open the `get_junctions`
cursor — `none` here mirrors the `?` on line 118 that aborts the whole sweep —
and evaluate every cursor element.  The `for_each_concurrent` fan-out is
modelled sequentially in cursor order: distinct links of one item belong to
distinct guilds, so their store writes touch distinct rows and commute.
Returns `none` when the sweep is aborted, otherwise (new store, messages). -/
def eval_item (env : SweepEnv) (app_id : Int) (store : List models.Junction) :
    Option (List models.Junction × List Message) :=
  match (get_app (env.fetch app_id)).1 with
  | .ok (some app) =>
    match env.junctions app_id with
    | none => none
    | some elems =>
      some (elems.foldl
        (fun acc e =>
          let acc' := eval_link env app e acc.1
          (acc'.1, acc.2 ++ acc'.2))
        (store, []))
  | .ok none => some (store, [])
  | .err _ => some (store, [])

/-- Outcome of one sweep: final item-cache and junction collections, delivered
messages, the item ids whose per-item body ran to completion, and whether
`check_apps` returned `Err` (aborting the remainder of the sweep). -/
structure SweepResult where
  apps : List models.App
  junctions : List models.Junction
  delivered : List Message
  processed : List Int
  aborted : Bool
  deriving Repr

/-- The item loop of `check_apps` (src/events/serenity_ready.rs lines 103-139). -/
def run_items (env : SweepEnv) :
    List Int → List models.App → List models.Junction → List Message → List Int →
    SweepResult
  | [], apps, junc, msgs, done => ⟨apps, junc, msgs, done, false⟩
  | a :: rest, apps, junc, msgs, done =>
    match eval_item env a junc with
    | none => ⟨apps, junc, msgs, done, true⟩
    | some acc => run_items env rest apps acc.1 (msgs ++ acc.2) (done ++ [a])

/-- Embeds `check_apps` (src/events/serenity_ready.rs lines 92-142): prune
orphans (a failure is logged and ignored), list the tracked item ids — `none`
mirrors the `?` on line 103 aborting the sweep — then run the item loop. -/
def check_apps (env : SweepEnv) (apps0 : List models.App)
    (junc0 : List models.Junction) : SweepResult :=
  let apps1 := if env.remove_orphans_ok then remove_orphans apps0 junc0 else apps0
  match env.app_ids with
  | none => ⟨apps1, junc0, [], [], true⟩
  | some ids => run_items env ids apps1 junc0 [] []

/-! ## Concrete inputs used by counterexamples and witnesses -/

/-- A guild config: channel 100, default sale threshold 10, guild 1
(the scenario of spec §8). -/
def dRel : models.Discord := ⟨1, 100, 10, 1⟩

/-- A link for item 5 of guild 1 with stored `coming_soon = true`. -/
def jRel : models.Junction := ⟨10, 5, 1, false, true, none⟩

/-- Item 5 as fetched: no longer coming soon, no price. -/
def appRel : steam.App := ⟨"game5", 5, false, "", "", none, none, ⟨false⟩⟩

/-- A link for item 6 of guild 1, not trailing, no threshold override. -/
def jSale : models.Junction := ⟨11, 6, 1, false, false, none⟩

/-- Item 6 as fetched: on sale at 15% off. -/
def appSale : steam.App :=
  ⟨"game6", 6, false, "", "", some ⟨15, "$10", "$8.50"⟩, none, ⟨false⟩⟩

/-- A link for item 7 of guild 1. -/
def jFree : models.Junction := ⟨12, 7, 1, false, false, none⟩

/-- Item 7 as fetched: free and released. -/
def appFree : steam.App := ⟨"game7", 7, true, "", "", none, none, ⟨false⟩⟩

/-- Fetch outcomes whose first six calls are rate-limited and whose seventh
succeeds with "not found". -/
def detailsC2 : Nat → FetchResult := fun n => if n < 6 then .err true else .ok none

/-- Sweep environment where opening item 1's tracking-link cursor fails while
item 2 is perfectly healthy. -/
def envC3 : SweepEnv :=
  ⟨true, some [1, 2], fun _ _ => .ok (some appRel),
   fun a => if a == 1 then none else some [],
   fun _ => some (some dRel), fun _ => true, fun _ => true, fun _ _ => true⟩

/-- Sweep environment where every isolated operation fails — orphan pruning,
every fetch (rate-limited), one cursor element, every guild lookup, every
send, every update, every removal — but listing item ids and opening the
per-item cursors succeed. -/
def envC3w : SweepEnv :=
  ⟨false, some [1, 2], fun _ _ => .err true,
   fun _ => some [none, some jFree],
   fun _ => none, fun _ => false, fun _ => false, fun _ _ => false⟩

/-- Healthy sweep environment tracking only the free-and-released item 7. -/
def envC6 : SweepEnv :=
  ⟨true, some [7], fun _ _ => .ok (some appFree),
   fun _ => some [some jFree],
   fun g => if g == 1 then some (some dRel) else none,
   fun _ => true, fun _ => true, fun _ _ => true⟩

/-- All-ok environment for `set_thresholds`: cursor, elements and updates all
succeed. -/
def envThrOk : ThresholdEnv := ⟨true, fun _ => true, fun _ => true⟩

/-- Guild 1's link for item 1 ("A" in the C8 scenario). -/
def jA : models.Junction := ⟨30, 1, 1, false, false, none⟩

/-- Guild 1's link for item 2 ("B" in the C8 scenario). -/
def jB : models.Junction := ⟨31, 2, 1, false, false, some 80⟩

/-- A link of another guild for item 3 ("C" exists only for guild 2). -/
def jOther : models.Junction := ⟨32, 3, 2, false, false, none⟩

/-- Item-cache row for item 0 with no referencing link (an orphan). -/
def appCacheOrphan : models.App := ⟨40, 0, "orphan"⟩

/-- Item-cache row for item 7, referenced by `jFree`. -/
def appCacheKept : models.App := ⟨41, 7, "kept"⟩

/-! ## Helper lemmas -/

theorem get_app_loop_attempts_le (details : Nat → FetchResult) :
    ∀ (remaining idx : Nat) (res : FetchResult),
      (get_app_loop details idx remaining res).2 ≤ idx + remaining + 1 := by
  intro remaining
  induction remaining with
  | zero =>
    intro idx res
    unfold get_app_loop
    split <;> simp
  | succ r ih =>
    intro idx res
    unfold get_app_loop
    split
    · exact le_trans (ih (idx + 1) (details idx)) (by omega)
    · omega

theorem eval_item_ne_none (env : SweepEnv) (a : Int) (store : List models.Junction)
    (h : env.junctions a ≠ none) : eval_item env a store ≠ none := by
  unfold eval_item
  cases hres : (get_app (env.fetch a)).1 with
  | ok o =>
    cases o with
    | none => simp
    | some app =>
      cases hj : env.junctions a with
      | none => exact absurd hj h
      | some elems => simp
  | err b => simp

theorem run_items_no_abort (env : SweepEnv) :
    ∀ (ids : List Int), (∀ a ∈ ids, env.junctions a ≠ none) →
      ∀ (apps : List models.App) (junc : List models.Junction)
        (msgs : List Message) (done : List Int),
        (run_items env ids apps junc msgs done).aborted = false ∧
        (run_items env ids apps junc msgs done).processed = done ++ ids := by
  intro ids
  induction ids with
  | nil => intro _ apps junc msgs done; simp [run_items]
  | cons a rest ih =>
    intro h apps junc msgs done
    have ha : env.junctions a ≠ none := h a (by simp)
    cases hopt : eval_item env a junc with
    | none => exact absurd hopt (eval_item_ne_none env a junc ha)
    | some acc =>
      have hrest : ∀ b ∈ rest, env.junctions b ≠ none := by
        intro b hb; exact h b (by simp [hb])
      have := ih hrest apps acc.1 (msgs ++ acc.2) (done ++ [a])
      simpa [run_items, hopt] using this

set_option maxHeartbeats 1000000

theorem notify_guild_all_ok (d : models.Discord) (j : models.Junction)
    (app : steam.App) (send_ok : Message → Bool) (update_ok : models.Junction → Bool)
    (hch : 0 ≤ d.channel_id) (hsend : ∀ m, send_ok m = true)
    (hupd : ∀ x, update_ok x = true) :
    notify_guild (some (some d)) j app send_ok update_ok =
      ⟨(if j.coming_soon && !app.release_date.coming_soon then
          [⟨d.channel_id, .released app⟩] else [])
        ++ (if is_significant_discount j d app && !j.is_trailing_sale_day then
          [⟨d.channel_id, .sale app⟩] else []),
        some { j with coming_soon := app.release_date.coming_soon,
                      is_trailing_sale_day := is_significant_discount j d app },
        true⟩ := by
  have hnlt : ¬(d.channel_id < 0) := not_lt.mpr hch
  simp [notify_guild, hnlt, hsend, hupd]

/-! ## C2 — rate-limit retry policy -/

/-- C2 counterexample.  The claim states that after 6 consecutive rate-limited
attempts the fetch is abandoned and *no 7th attempt is issued*.  With fetch
outcomes whose first six calls are rate-limited and whose seventh succeeds,
`get_app` issues 7 calls and returns the 7th call's result: the retry-cap
check in the source runs *after* each retry, so the first attempt is followed
by up to 6 retries, not 5. -/
theorem C2_counterexample : get_app detailsC2 = (.ok none, 7) := by decide

/-- C2 amended: the first attempt is followed by at most 6 retries (7 attempts
total).  If 7 consecutive attempts are all rate-limited the loop stops with the
rate-limited error (total of exactly 7 calls) and the item is skipped for this
sweep; a non-rate-limit error is returned to the caller immediately without
any retry; and in `check_apps` an item whose fetch ends in an error is skipped
with the sweep proceeding (the junction store untouched, no messages sent). -/
theorem C2_amended :
    (∀ details : Nat → FetchResult, (∀ n, n < 7 → details n = .err true) →
      get_app details = (.err true, 7))
    ∧ (∀ details : Nat → FetchResult, details 0 = .err false →
      get_app details = (.err false, 1))
    ∧ (∀ details : Nat → FetchResult, (get_app details).2 ≤ 7)
    ∧ (∀ (env : SweepEnv) (a : Int) (store : List models.Junction) (b : Bool),
      (get_app (env.fetch a)).1 = .err b →
      eval_item env a store = some (store, [])) := by
  refine ⟨?_, ?_, ?_, ?_⟩
  · intro details h
    have h0 := h 0 (by norm_num)
    have h1 := h 1 (by norm_num)
    have h2 := h 2 (by norm_num)
    have h3 := h 3 (by norm_num)
    have h4 := h 4 (by norm_num)
    have h5 := h 5 (by norm_num)
    have h6 := h 6 (by norm_num)
    simp [get_app, MAX_TRIES, get_app_loop, h0, h1, h2, h3, h4, h5, h6,
      is_rate_limited_res]
  · intro details h
    simp [get_app, MAX_TRIES, get_app_loop, h, is_rate_limited_res]
  · intro details
    exact le_trans (get_app_loop_attempts_le details MAX_TRIES 1 (details 0))
      (by simp [MAX_TRIES])
  · intro env a store b h
    simp [eval_item, h]

/-- Witness for C2: at the all-rate-limited fetch function, `get_app` makes
exactly 7 calls and returns the rate-limited error, and `check_apps`'s item
body skips the item leaving the store untouched. -/
theorem C2_witness :
    get_app (fun _ => .err true) = (.err true, 7) ∧
    eval_item envC3w 1 [jFree] = some ([jFree], []) := by
  refine ⟨C2_amended.1 (fun _ => .err true) (fun _ _ => rfl), ?_⟩
  exact C2_amended.2.2.2 envC3w 1 [jFree] true
    (by rw [C2_amended.1 (envC3w.fetch 1) (fun _ _ => rfl)])

/-! ## C1 — notification-send failure vs. state update -/

/-- C1 counterexample.  The claim states that when the send to the guild's
channel fails, the link's `coming_soon` / `is_trailing_sale_day` snapshot
fields are *still persisted*.  At a link with stored `coming_soon = true`, a
fetched item that has released, and a failing send, `notify_guild` returns the
send error through `?` before ever reaching `update_junction`: nothing is
persisted and the call fails. -/
theorem C1_counterexample :
    (notify_guild (some (some dRel)) jRel appRel (fun _ => false)
        (fun _ => true)).persisted = none
    ∧ (notify_guild (some (some dRel)) jRel appRel (fun _ => false)
        (fun _ => true)).success = false := by
  exact ⟨rfl, rfl⟩

/-- C1 amended: a failure to send a notification message (released or sale)
*does* prevent the link's state update — `notify_guild` propagates the send
error with `?`, so `update_junction` is never reached, no snapshot fields are
persisted, and the call reports failure (which `check_apps` logs, abandoning
only this link's evaluation). -/
theorem C1_amended (d : models.Discord) (j : models.Junction) (app : steam.App)
    (send_ok : Message → Bool) (update_ok : models.Junction → Bool)
    (hch : 0 ≤ d.channel_id) :
    (j.coming_soon = true → app.release_date.coming_soon = false →
      send_ok ⟨d.channel_id, .released app⟩ = false →
      (notify_guild (some (some d)) j app send_ok update_ok).persisted = none ∧
      (notify_guild (some (some d)) j app send_ok update_ok).success = false)
    ∧ (is_significant_discount j d app = true → j.is_trailing_sale_day = false →
      send_ok ⟨d.channel_id, .sale app⟩ = false →
      (notify_guild (some (some d)) j app send_ok update_ok).persisted = none ∧
      (notify_guild (some (some d)) j app send_ok update_ok).success = false) := by
  have hnlt : ¬(d.channel_id < 0) := not_lt.mpr hch
  constructor
  · intro h1 h2 h3
    simp [notify_guild, hnlt, h1, h2, h3]
  · intro hsig htrail hsend
    by_cases hrel :
        (j.coming_soon && !app.release_date.coming_soon
          && !send_ok ⟨d.channel_id, .released app⟩) = true
    · constructor <;> simp [notify_guild, hnlt, hrel]
    · constructor <;> simp [notify_guild, hnlt, hrel, hsig, htrail, hsend]

/-- Witness for C1: at the released-transition link of guild 1 with a failing
send, the amended theorem yields that nothing was persisted. -/
theorem C1_witness :
    (notify_guild (some (some dRel)) jRel appRel (fun _ => false)
        (fun _ => true)).persisted = none := by
  exact (C1_amended dRel jRel appRel (fun _ => false) (fun _ => true)
    (by decide)).1 rfl rfl rfl |>.1

/-! ## C3 — repository-error isolation in the sweep -/

/-- C3 counterexample.  The claim states that a repository error while listing
one item's tracking links only abandons that item and the sweep continues with
the next one.  In `envC3`, item 1's `get_junctions` cursor fails while item 2
is healthy — yet `check_apps` propagates the error with `?`, aborting the
whole sweep: no item completes, item 2 is never visited. -/
theorem C3_counterexample :
    (check_apps envC3 [] []).aborted = true ∧
    (check_apps envC3 [] []).processed = [] := by
  decide

/-- C3 amended: failures of orphan pruning, of deserializing one cursor
element, of one link's update, and of one link's removal are isolated (logged,
sweep continues) — witnessed by the sweep completing every item no matter what
those outcomes are — but an error listing the tracked item ids aborts the
sweep before any item, and an error opening one item's tracking-link cursor
aborts the remainder of the sweep. -/
theorem C3_amended (env : SweepEnv) (apps0 : List models.App)
    (junc0 : List models.Junction) :
    (env.app_ids = none → (check_apps env apps0 junc0).aborted = true)
    ∧ (∀ ids, env.app_ids = some ids → (∀ a ∈ ids, env.junctions a ≠ none) →
      (check_apps env apps0 junc0).aborted = false ∧
      (check_apps env apps0 junc0).processed = ids) := by
  constructor
  · intro h
    simp [check_apps, h]
  · intro ids h hj
    have := run_items_no_abort env ids hj
      (if env.remove_orphans_ok then remove_orphans apps0 junc0 else apps0)
      junc0 [] []
    simpa [check_apps, h] using this

/-- Witness for C3: in `envC3w` every isolated operation fails (orphan prune,
fetches rate-limited to exhaustion, a cursor element, guild lookups, sends,
updates, removals) yet the sweep is not aborted and both items complete. -/
theorem C3_witness :
    (check_apps envC3w [] [jFree]).aborted = false ∧
    (check_apps envC3w [] [jFree]).processed = [1, 2] := by
  exact (C3_amended envC3w [] [jFree]).2 [1, 2] rfl
    (by intro a _; simp [envC3w])

/-! ## C4 — sale notification condition and idempotence -/

/-- C4 confirmed: under a resolvable guild config and succeeding sends and
update, a "sale" notification goes to the guild's channel iff the fetched
item carries a price whose `discount_percent` is at least the effective
threshold (the link's override, else the guild default) and the stored
`is_trailing_sale_day` is false; afterwards `is_trailing_sale_day` is
persisted as the significant-discount predicate, so on a subsequent sweep
with the discount still at or above threshold no further sale notification
is emitted. -/
theorem C4_sale_notification (d : models.Discord) (j : models.Junction)
    (app app2 : steam.App) (send_ok : Message → Bool)
    (update_ok : models.Junction → Bool)
    (hch : 0 ≤ d.channel_id) (hsend : ∀ m, send_ok m = true)
    (hupd : ∀ x, update_ok x = true) :
    (is_significant_discount j d app = true ↔
      ∃ p, app.price_overview = some p ∧
        j.sale_threshold.getD d.sale_threshold ≤ p.discount_percent)
    ∧ ((⟨d.channel_id, .sale app⟩ : Message) ∈
        (notify_guild (some (some d)) j app send_ok update_ok).delivered ↔
      (is_significant_discount j d app = true ∧ j.is_trailing_sale_day = false))
    ∧ (notify_guild (some (some d)) j app send_ok update_ok).persisted =
        some { j with coming_soon := app.release_date.coming_soon,
                      is_trailing_sale_day := is_significant_discount j d app }
    ∧ (∀ j',
        (notify_guild (some (some d)) j app send_ok update_ok).persisted = some j' →
        is_significant_discount j d app = true →
        is_significant_discount j' d app2 = true →
        (⟨d.channel_id, .sale app2⟩ : Message) ∉
          (notify_guild (some (some d)) j' app2 send_ok update_ok).delivered) := by
  have hng := notify_guild_all_ok d j app send_ok update_ok hch hsend hupd
  refine ⟨?_, ?_, ?_, ?_⟩
  · cases hp : app.price_overview with
    | none => simp [is_significant_discount, effective_threshold, hp]
    | some p => simp [is_significant_discount, effective_threshold, hp]
  · rw [hng]
    by_cases hrel : (j.coming_soon && !app.release_date.coming_soon) = true <;>
      by_cases hsale :
        (is_significant_discount j d app && !j.is_trailing_sale_day) = true <;>
      simp_all
  · rw [hng]
  · intro j' hj' hsig hsig2
    rw [hng] at hj'
    have hj'' : j' = { j with coming_soon := app.release_date.coming_soon,
                              is_trailing_sale_day := is_significant_discount j d app } :=
      (Option.some.injEq _ _).mp hj' |>.symm
    subst hj''
    have hng2 := notify_guild_all_ok d
      { j with coming_soon := app.release_date.coming_soon,
               is_trailing_sale_day := is_significant_discount j d app }
      app2 send_ok update_ok hch hsend hupd
    rw [hng2]
    simp [hsig]

/-- Witness for C4 (spec §8 scenario): guild default threshold 10, link with
no override and `is_trailing_sale_day = false`, item discounted 15% — one sale
notification to channel 100, `is_trailing_sale_day` persisted `true`, and no
further sale notification on the next sweep with the same discount. -/
theorem C4_witness :
    ((⟨100, .sale appSale⟩ : Message) ∈
      (notify_guild (some (some dRel)) jSale appSale (fun _ => true)
        (fun _ => true)).delivered)
    ∧ (notify_guild (some (some dRel)) jSale appSale (fun _ => true)
        (fun _ => true)).persisted =
        some { jSale with coming_soon := false, is_trailing_sale_day := true }
    ∧ ((⟨100, .sale appSale⟩ : Message) ∉
        (notify_guild (some (some dRel))
          { jSale with coming_soon := false, is_trailing_sale_day := true }
          appSale (fun _ => true) (fun _ => true)).delivered) := by
  have h := C4_sale_notification dRel jSale appSale appSale (fun _ => true)
    (fun _ => true) (by decide) (fun _ => rfl) (fun _ => rfl)
  refine ⟨h.2.1.mpr ⟨by decide, rfl⟩, h.2.2.1, ?_⟩
  exact h.2.2.2 _ h.2.2.1 (by decide) (by decide)

/-! ## C5 — released notification fires exactly once -/

/-- C5 confirmed: for a link with stored `coming_soon = true` whose fetched
item reports `coming_soon = false`, under a resolvable guild config and
succeeding sends and update, exactly one "released" notification is delivered
to the guild's bound channel, the link is persisted with `coming_soon = false`,
and a later sweep starting from the persisted link delivers no further
"released" notification whatever the next fetched state is. -/
theorem C5_released_notification (d : models.Discord) (j : models.Junction)
    (app : steam.App) (send_ok : Message → Bool)
    (update_ok : models.Junction → Bool)
    (hch : 0 ≤ d.channel_id) (hsend : ∀ m, send_ok m = true)
    (hupd : ∀ x, update_ok x = true)
    (hj : j.coming_soon = true) (happ : app.release_date.coming_soon = false) :
    (notify_guild (some (some d)) j app send_ok update_ok).delivered.count
        ⟨d.channel_id, .released app⟩ = 1
    ∧ (notify_guild (some (some d)) j app send_ok update_ok).persisted =
        some { j with coming_soon := false,
                      is_trailing_sale_day := is_significant_discount j d app }
    ∧ (∀ j' app2,
        (notify_guild (some (some d)) j app send_ok update_ok).persisted = some j' →
        (notify_guild (some (some d)) j' app2 send_ok update_ok).delivered.count
          ⟨d.channel_id, .released app2⟩ = 0) := by
  have hng := notify_guild_all_ok d j app send_ok update_ok hch hsend hupd
  refine ⟨?_, ?_, ?_⟩
  · rw [hng]
    by_cases hsale :
        (is_significant_discount j d app && !j.is_trailing_sale_day) = true <;>
      simp [hj, happ, hsale, List.count_cons, List.count_append]
  · rw [hng, happ]
  · intro j' app2 hj'
    rw [hng] at hj'
    have hj'' : j' = { j with coming_soon := app.release_date.coming_soon,
                              is_trailing_sale_day := is_significant_discount j d app } :=
      (Option.some.injEq _ _).mp hj' |>.symm
    subst hj''
    have hng2 := notify_guild_all_ok d
      { j with coming_soon := app.release_date.coming_soon,
               is_trailing_sale_day := is_significant_discount j d app }
      app2 send_ok update_ok hch hsend hupd
    rw [hng2]
    have hc : ({ j with coming_soon := app.release_date.coming_soon, is_trailing_sale_day := is_significant_discount j d app } : models.Junction).coming_soon = app.release_date.coming_soon := rfl
    rw [hc, happ]
    simp only [Bool.false_and, Bool.false_eq_true, if_false, List.nil_append]
    split <;> simp [List.count_cons]

/-- Witness for C5 (spec §8 scenario): guild 1 bound to channel 100, link for
item 5 with `coming_soon = true`, fetched item 5 released with no price —
exactly one "released" notification to channel 100, link persisted to
`coming_soon = false, is_trailing_sale_day = false`, and zero released
notifications on the following sweep. -/
theorem C5_witness :
    (notify_guild (some (some dRel)) jRel appRel (fun _ => true)
        (fun _ => true)).delivered.count ⟨100, .released appRel⟩ = 1
    ∧ (notify_guild (some (some dRel)) jRel appRel (fun _ => true)
        (fun _ => true)).persisted =
        some { jRel with coming_soon := false, is_trailing_sale_day := false }
    ∧ (notify_guild (some (some dRel))
        { jRel with coming_soon := false, is_trailing_sale_day := false }
        appRel (fun _ => true) (fun _ => true)).delivered.count
        ⟨100, .released appRel⟩ = 0 := by
  have h := C5_released_notification dRel jRel appRel (fun _ => true)
    (fun _ => true) (by decide) (fun _ => rfl) (fun _ => rfl) rfl rfl
  exact ⟨h.1, h.2.1, h.2.2 _ appRel h.2.1⟩

/-! ## C6 — free-and-released links -/

/-- C6 counterexample.  The claim states that for a free-and-released item the
sweep deletes the TrackingLink *instead of* updating it — the row is "removed
… rather than persisted with updated snapshot fields".  At a link for the
free, released item 7, `notify_guild` (which `check_apps` always runs before
its removal step) persists the updated snapshot fields via `update_junction`;
the removal only happens afterwards, back in `check_apps`. -/
theorem C6_counterexample :
    (notify_guild (some (some dRel)) jFree appFree (fun _ => true)
        (fun _ => true)).persisted =
      some { jFree with coming_soon := false, is_trailing_sale_day := false } := by
  rfl

/-- If a store holds exactly one row with a given (guild, item) key, namely
`j`, and no other row shares `j`'s `_id`, then updating `j`'s fields by `_id`
(to any row with the same `_id` and key) followed by `delete_one` on the key
leaves no row with that key. -/
theorem upd_rem_key_filter (j j' : models.Junction)
    (hid' : j'.id = j.id) (hs' : j'.server_id = j.server_id)
    (ha' : j'.app_id = j.app_id) :
    ∀ store : List models.Junction,
      store.filter (fun x => x.server_id == j.server_id && x.app_id == j.app_id) = [j] →
      (∀ x ∈ store, x.id = j.id → x = j) →
      (remove_junction_store (update_one_by_id store j') j.server_id
          j.app_id).filter
        (fun x => x.server_id == j.server_id && x.app_id == j.app_id) = [] := by
  intro store
  induction store with
  | nil => intro h _; simp at h
  | cons x xs ih =>
    intro hf hidh
    by_cases hx : x.id = j.id
    · have hxj : x = j := hidh x (by simp) hx
      subst hxj
      have hpx : (x.server_id == x.server_id && x.app_id == x.app_id) = true := by
        simp
      rw [List.filter_cons, if_pos hpx] at hf
      have hfx := (List.cons_eq_cons.mp hf).2
      have h1 : update_one_by_id (x :: xs) j' = j' :: xs := by
        simp [update_one_by_id, hid']
      have h2 : remove_junction_store (j' :: xs) x.server_id x.app_id = xs := by
        simp [remove_junction_store, hs', ha']
      rw [h1, h2]
      exact hfx
    · cases hkb : (x.server_id == j.server_id && x.app_id == j.app_id) with
      | true =>
        exfalso
        rw [List.filter_cons, if_pos hkb] at hf
        have hxj : x = j := (List.cons_eq_cons.mp hf).1
        exact hx (by rw [hxj])
      | false =>
        have h1 : update_one_by_id (x :: xs) j' = x :: update_one_by_id xs j' := by
          have hne : ¬x.id = j'.id := by rw [hid']; exact hx
          simp [update_one_by_id, hne]
        have h2 : remove_junction_store (x :: update_one_by_id xs j')
            j.server_id j.app_id =
            x :: remove_junction_store (update_one_by_id xs j') j.server_id j.app_id := by
          rw [remove_junction_store]
          simp [hkb]
        rw [h1, h2, List.filter_cons, if_neg (by simp [hkb])]
        apply ih
        · rwa [List.filter_cons, if_neg (by simp [hkb])] at hf
        · intro y hy hyid
          exact hidh y (by simp [hy]) hyid

/-- C6 amended: when the fetched item is free and not coming-soon, the link's
evaluation first persists the updated snapshot fields through the shared
`notify_guild` path (`update_junction`) and then deletes the link
(`remove_junction`), so the net effect is that after the evaluation no row
with the link's (guild id, item id) key remains in the store. -/
theorem C6_amended (env : SweepEnv) (d : models.Discord) (j : models.Junction)
    (app : steam.App) (store : List models.Junction)
    (hg : env.guild j.server_id = some (some d)) (hch : 0 ≤ d.channel_id)
    (hsend : ∀ m, env.send_ok m = true) (hupd : ∀ x, env.update_ok x = true)
    (hrem : env.remove_ok j.server_id j.app_id = true)
    (hfree : app.is_free = true) (hcs : app.release_date.coming_soon = false)
    (hkey : store.filter
      (fun x => x.server_id == j.server_id && x.app_id == j.app_id) = [j])
    (hid : ∀ x ∈ store, x.id = j.id → x = j) :
    (notify_guild (some (some d)) j app env.send_ok env.update_ok).persisted =
      some { j with coming_soon := app.release_date.coming_soon,
                    is_trailing_sale_day := is_significant_discount j d app }
    ∧ ((eval_link env app (some j) store).1.filter
        (fun x => x.server_id == j.server_id && x.app_id == j.app_id) = []) := by
  have hng := notify_guild_all_ok d j app env.send_ok env.update_ok hch hsend hupd
  refine ⟨by rw [hng], ?_⟩
  have hev : (eval_link env app (some j) store).1 =
      remove_junction_store
        (update_one_by_id store
          { j with coming_soon := app.release_date.coming_soon,
                   is_trailing_sale_day := is_significant_discount j d app })
        j.server_id j.app_id := by
    simp only [eval_link, hg, hng]
    simp [hfree, hcs, hrem]
  rw [hev]
  exact upd_rem_key_filter j
    { j with coming_soon := app.release_date.coming_soon,
             is_trailing_sale_day := is_significant_discount j d app }
    rfl rfl rfl store hkey hid

/-- Witness for C6: in the healthy environment tracking the free-and-released
item 7, the update is persisted through the notify path and the link's
evaluation leaves no row with its (guild, item) key in the store. -/
theorem C6_witness :
    (notify_guild (some (some dRel)) jFree appFree envC6.send_ok
        envC6.update_ok).persisted =
      some { jFree with coming_soon := false, is_trailing_sale_day := false }
    ∧ (eval_link envC6 appFree (some jFree) [jFree]).1.filter
        (fun x => x.server_id == jFree.server_id && x.app_id == jFree.app_id) = [] := by
  exact C6_amended envC6 dRel jFree appFree [jFree] rfl (by decide)
    (fun _ => rfl) (fun _ => rfl) rfl rfl rfl (by decide)
    (by intro x hx _; simpa using hx)

/-! ## C7 — addLinkIfAbsent called twice -/

/-- C7 confirmed: starting from a store with no link for the key
(item id, guild id), a first `add_junction_if_not_exists` leaves exactly one
row with that key, carrying the first call's fields (under the fresh `_id`),
and a second call with the same key is a no-op even when its field values
differ — preserving the at-most-one-link-per-(item id, guild id) invariant. -/
theorem C7_add_link_if_absent (store : List models.Junction)
    (j1 j2 : models.Junction) (id1 id2 : Nat)
    (hkey : j2.app_id = j1.app_id ∧ j2.server_id = j1.server_id)
    (habsent : ∀ x ∈ store, ¬(x.app_id = j1.app_id ∧ x.server_id = j1.server_id)) :
    add_junction_if_not_exists (add_junction_if_not_exists store j1 id1) j2 id2 =
      add_junction_if_not_exists store j1 id1
    ∧ (add_junction_if_not_exists store j1 id1).filter
        (fun x => x.app_id == j1.app_id && x.server_id == j1.server_id) =
      [{ j1 with id := id1 }] := by
  have hany : store.any
      (fun x => x.app_id == j1.app_id && x.server_id == j1.server_id) = false := by
    rw [List.any_eq_false]
    intro x hx
    have := habsent x hx
    simp only [Bool.and_eq_true, beq_iff_eq]
    exact fun hc => this hc
  have hfirst : add_junction_if_not_exists store j1 id1 =
      store ++ [{ j1 with id := id1 }] := by
    simp [add_junction_if_not_exists, hany]
  constructor
  · rw [hfirst]
    have hany2 : (store ++ [{ j1 with id := id1 }]).any
        (fun x => x.app_id == j2.app_id && x.server_id == j2.server_id) = true := by
      rw [List.any_eq_true]
      refine ⟨{ j1 with id := id1 }, by simp, ?_⟩
      simp [hkey.1, hkey.2]
    simp [add_junction_if_not_exists, hany2]
  · rw [hfirst, List.filter_append]
    have h1 : store.filter
        (fun x => x.app_id == j1.app_id && x.server_id == j1.server_id) = [] := by
      rw [List.filter_eq_nil_iff]
      intro x hx
      have := habsent x hx
      simp only [Bool.and_eq_true, beq_iff_eq]
      exact fun hc => this hc
    rw [h1]
    simp

/-- Witness for C7: adding the same (item 6, guild 1) link twice — the second
time with different field values — leaves exactly the first call's row, and
the second call changes nothing. -/
theorem C7_witness :
    add_junction_if_not_exists (add_junction_if_not_exists [jFree] jSale 20)
        { jSale with coming_soon := true, sale_threshold := some 50 } 21 =
      add_junction_if_not_exists [jFree] jSale 20
    ∧ (add_junction_if_not_exists [jFree] jSale 20).filter
        (fun x => x.app_id == jSale.app_id && x.server_id == jSale.server_id) =
      [{ jSale with id := 20 }] := by
  exact C7_add_link_if_absent [jFree]
    jSale { jSale with coming_soon := true, sale_threshold := some 50 } 20 21
    ⟨rfl, rfl⟩ (by decide)

/-! ## C8 — setThresholdsForLinks -/

theorem bool_eq_of_iff {b c : Bool} (h : b = true ↔ c = true) : b = c := by
  cases b <;> cases c <;> simp_all

theorem contains_of_mem (l : List Int) (a : Int) (h : a ∈ l) :
    l.contains a = true := by
  rw [List.contains_eq_any_beq, List.any_eq_true]
  exact ⟨a, h, by simp⟩

theorem set_thr_fold_all_ok (env : ThresholdEnv) (t : Int)
    (helem : ∀ x, env.elem_ok x = true) (hupd : ∀ x, env.upd_ok x = true) :
    ∀ (l : List models.Junction) (st : List models.Junction) (acc : List Int),
      l.foldl (set_thr_step env t) (st, acc) =
        (l.foldl (fun s x => update_one_threshold s x.id t) st,
         acc ++ l.map (·.app_id)) := by
  intro l
  induction l with
  | nil => intro st acc; simp
  | cons x xs ih =>
    intro st acc
    simp only [List.foldl_cons, set_thr_step, helem x, hupd x, if_true]
    rw [ih]
    simp

theorem map_set_if_id (idv : Nat) (t : Int) :
    ∀ xs : List models.Junction, (∀ y ∈ xs, ¬y.id = idv) →
      xs.map (fun y => if y.id = idv then { y with sale_threshold := some t } else y)
        = xs := by
  intro xs
  induction xs with
  | nil => intro _; rfl
  | cons x l ih =>
    intro h
    have hx : ¬x.id = idv := h x (by simp)
    simp only [List.map_cons, if_neg hx]
    rw [ih (fun y hy => h y (by simp [hy]))]

theorem update_one_threshold_eq_map (idv : Nat) (t : Int) :
    ∀ st : List models.Junction, (st.map (·.id)).Nodup →
      update_one_threshold st idv t =
        st.map (fun y => if y.id = idv then { y with sale_threshold := some t }
          else y) := by
  intro st
  induction st with
  | nil => intro _; rfl
  | cons x xs ih =>
    intro hnd
    rw [List.map_cons, List.nodup_cons] at hnd
    by_cases hx : x.id = idv
    · simp only [update_one_threshold, if_pos hx, List.map_cons]
      rw [map_set_if_id idv t xs]
      intro y hy he
      apply hnd.1
      have hmem : y.id ∈ xs.map (·.id) := List.mem_map_of_mem _ hy
      rwa [he, ← hx] at hmem
    · simp only [update_one_threshold, if_neg hx, List.map_cons]
      rw [ih hnd.2]

theorem fold_update_eq_map (t : Int) :
    ∀ (l st : List models.Junction), (st.map (·.id)).Nodup →
      l.foldl (fun s x => update_one_threshold s x.id t) st =
        st.map (fun y => if l.any (fun x => x.id == y.id) then
          { y with sale_threshold := some t } else y) := by
  intro l
  induction l with
  | nil => intro st _; simp
  | cons x l ih =>
    intro st hnd
    rw [List.foldl_cons, update_one_threshold_eq_map x.id t st hnd]
    have hcomp : ((·.id) ∘ fun y : models.Junction =>
        if y.id = x.id then { y with sale_threshold := some t } else y) =
        fun y : models.Junction => y.id := by
      funext y
      by_cases h : y.id = x.id <;> simp [Function.comp, h]
    have hnd' : (((st.map fun y => if y.id = x.id then
        { y with sale_threshold := some t } else y)).map (·.id)).Nodup := by
      rw [List.map_map, hcomp]
      exact hnd
    rw [ih _ hnd', List.map_map]
    apply List.map_congr_left
    intro y hy
    simp only [Function.comp_apply, List.any_cons]
    by_cases hyx : y.id = x.id
    · rw [if_pos hyx]
      have hx2 : (x.id == y.id) = true := by simp [hyx]
      by_cases hl : (l.any fun z => z.id == y.id) = true
      · simp [hx2, hl]
      · simp [hx2, hl]
    · rw [if_neg hyx]
      have hx2 : (x.id == y.id) = false := by
        simp only [beq_eq_false_iff_ne, ne_eq]
        exact fun h => hyx h.symm
      simp only [hx2, Bool.false_or]

/-- C8 confirmed: with a reachable store and per-record updates succeeding,
`set_thresholds guildId T itemIds` sets `sale_threshold := T` on exactly the
stored links of that guild whose item id is among the requested ids (all other
rows unchanged), and returns exactly the requested ids that have no link for
that guild — partial failure is this returned list; the function's type has no
error channel at all.  (`_id`s are pairwise distinct, as Mongo guarantees.) -/
theorem C8_set_thresholds_for_links (env : ThresholdEnv)
    (store : List models.Junction) (g T : Int) (ids : List Int)
    (hfind : env.find_ok = true) (helem : ∀ x, env.elem_ok x = true)
    (hupd : ∀ x, env.upd_ok x = true)
    (hnodup : (store.map (·.id)).Nodup) :
    (set_thresholds env store g T ids).1 =
      store.map (fun y => if y.server_id == g && ids.contains y.app_id then
        { y with sale_threshold := some T } else y)
    ∧ (set_thresholds env store g T ids).2 =
      ids.filter (fun a =>
        !(store.any (fun x => x.server_id == g && x.app_id == a))) := by
  simp only [set_thresholds, hfind, if_true]
  rw [set_thr_fold_all_ok env T helem hupd]
  constructor
  · rw [fold_update_eq_map T _ store hnodup]
    apply List.map_congr_left
    intro y hy
    have hcond : (store.filter
        (fun x => x.server_id == g && ids.contains x.app_id)).any
          (fun x => x.id == y.id) =
        (y.server_id == g && ids.contains y.app_id) := by
      apply bool_eq_of_iff
      constructor
      · intro h
        rw [List.any_eq_true] at h
        obtain ⟨x, hxmem, hbeq⟩ := h
        rw [List.mem_filter] at hxmem
        have hxy : x = y := List.inj_on_of_nodup_map hnodup hxmem.1 hy
          (by simpa using hbeq)
        rw [← hxy]
        exact hxmem.2
      · intro h
        rw [List.any_eq_true]
        exact ⟨y, List.mem_filter.mpr ⟨hy, h⟩, by simp⟩
    rw [hcond]
  · simp only [List.nil_append]
    apply List.filter_congr
    intro a ha
    congr 1
    apply bool_eq_of_iff
    rw [List.contains_eq_any_beq, List.any_eq_true, List.any_eq_true]
    constructor
    · intro h
      obtain ⟨b, hbmem, hbeq⟩ := h
      rw [List.mem_map] at hbmem
      obtain ⟨x, hxmem, hxb⟩ := hbmem
      rw [List.mem_filter, Bool.and_eq_true] at hxmem
      refine ⟨x, hxmem.1, ?_⟩
      have hab : a = b := by simpa using hbeq
      rw [Bool.and_eq_true]
      exact ⟨hxmem.2.1, by simp [hxb, hab]⟩
    · intro h
      obtain ⟨x, hxmem, hxq⟩ := h
      rw [Bool.and_eq_true] at hxq
      have hxa : x.app_id = a := by simpa using hxq.2
      refine ⟨x.app_id, ?_, by simp [hxa]⟩
      rw [List.mem_map]
      refine ⟨x, ?_, rfl⟩
      rw [List.mem_filter, Bool.and_eq_true]
      exact ⟨hxmem, hxq.1, by rw [hxa]; exact contains_of_mem ids a ha⟩

/-- Witness for C8 (spec §8 scenario): guild 1 has links only for items 1 and
2; `set_thresholds 1 25 [1, 2, 3]` updates both their thresholds to 25, leaves
the other guild's link alone, and returns `[3]` as the failed set. -/
theorem C8_witness :
    (set_thresholds envThrOk [jA, jB, jOther] 1 25 [1, 2, 3]).1 =
      [{ jA with sale_threshold := some 25 },
       { jB with sale_threshold := some 25 }, jOther]
    ∧ (set_thresholds envThrOk [jA, jB, jOther] 1 25 [1, 2, 3]).2 = [3] := by
  have h := C8_set_thresholds_for_links envThrOk [jA, jB, jOther] 1 25 [1, 2, 3]
    rfl (fun _ => rfl) (fun _ => rfl) (by decide)
  exact ⟨h.1.trans (by decide), h.2.trans (by decide)⟩

/-! ## C9 — orphan pruning -/

/-- C9 confirmed: `remove_orphans` deletes exactly the item-cache rows
referenced by zero tracking links — the result is the sub-list of rows that
have at least one referencing link, each of them unchanged.  (`_id`s are
pairwise distinct, as Mongo guarantees.) -/
theorem C9_remove_orphans (apps : List models.App) (js : List models.Junction)
    (hnodup : (apps.map (·.id)).Nodup) :
    remove_orphans apps js =
      apps.filter (fun a => js.any (fun j => j.app_id == a.app_id)) := by
  unfold remove_orphans
  apply List.filter_congr
  intro a ha
  apply bool_eq_of_iff
  constructor
  · intro h
    rw [Bool.not_eq_true'] at h
    by_contra hany
    have hany' : js.any (fun j => j.app_id == a.app_id) = false :=
      Bool.eq_false_iff.mpr hany
    have hmem : a.id ∈
        (apps.filter (fun b => !js.any (fun j => j.app_id == b.app_id))).map
          (·.id) := by
      rw [List.mem_map]
      exact ⟨a, List.mem_filter.mpr ⟨ha, by rw [hany']; rfl⟩, rfl⟩
    rw [List.contains_eq_any_beq, List.any_eq_false] at h
    exact h a.id hmem (by simp)
  · intro h
    rw [Bool.not_eq_true', List.contains_eq_any_beq, List.any_eq_false]
    intro bid hbid hbeq
    rw [List.mem_map] at hbid
    obtain ⟨b, hb, hbid'⟩ := hbid
    rw [List.mem_filter] at hb
    have hba : b = a := List.inj_on_of_nodup_map hnodup hb.1 ha
      (hbid'.trans (beq_iff_eq.mp hbeq).symm)
    have hfb := hb.2
    rw [hba] at hfb
    simp [h] at hfb

/-- Witness for C9 (spec §8 scenario): of an orphan cache row (item 0, no
link) and a referenced cache row (item 7, tracked by `jFree`), only the
orphan is deleted and the referenced row survives unchanged. -/
theorem C9_witness :
    remove_orphans [appCacheOrphan, appCacheKept] [jFree] = [appCacheKept] := by
  exact (C9_remove_orphans [appCacheOrphan, appCacheKept] [jFree]
    (by decide)).trans (by decide)

/-! ## C10 — default guild sale threshold -/

/-- C10 confirmed: creating a guild config for an absent guild stores
`sale_threshold = DEFAULT_SALE_THRESHOLD = 1`, so for any of that guild's
links without a per-link override, an item with a price is a significant
discount exactly when its discount percentage is at least 1. -/
theorem C10_default_threshold (store : List models.Discord)
    (guild_id channel_id : Int) (fresh_id : Nat)
    (habsent : ∀ d ∈ store, d.server_id ≠ guild_id) :
    add_guild_if_not_exists store guild_id channel_id fresh_id =
      store ++ [⟨fresh_id, channel_id, 1, guild_id⟩]
    ∧ (∀ (j : models.Junction) (app : steam.App) (p : steam.PriceOverview),
        j.sale_threshold = none → app.price_overview = some p →
        (is_significant_discount j ⟨fresh_id, channel_id, 1, guild_id⟩ app = true ↔
          1 ≤ p.discount_percent)) := by
  constructor
  · have hany : store.any (fun d => d.server_id == guild_id) = false := by
      rw [List.any_eq_false]
      intro d hd
      simp only [beq_iff_eq]
      exact habsent d hd
    simp [add_guild_if_not_exists, hany, DEFAULT_SALE_THRESHOLD]
  · intro j app p hnone hp
    simp [is_significant_discount, effective_threshold, hp, hnone]

/-- Witness for C10: adding guild 9 to an empty config store creates a config
with threshold 1, and a 1%-discounted priced item is already significant for
a link of that guild without an override. -/
theorem C10_witness :
    add_guild_if_not_exists [] 9 500 50 = [⟨50, 500, 1, 9⟩]
    ∧ (is_significant_discount jFree ⟨50, 500, 1, 9⟩
        { appSale with price_overview := some ⟨1, "$10", "$9.90"⟩ } = true ↔
      (1 : Int) ≤ 1) := by
  have h := C10_default_threshold [] 9 500 50 (by intro d hd; cases hd)
  exact ⟨h.1, h.2 jFree
    { appSale with price_overview := some ⟨1, "$10", "$9.90"⟩ }
    ⟨1, "$10", "$9.90"⟩ rfl rfl⟩
